import Mathlib

/-!
Verification development for the hyprbot chat-bot backend.

Shallow embedding of the core components of the repository:
the crypto envelope manager (internal/crypto), the redis stream job queue
and worker retry discipline (internal/queue/stream.go, worker consumeLoop),
the rate limiter (internal/queue ratelimit), the provider adapter retry
loops (openai_compat and custom_http clients), the worker reply
finalization, the ingress update processor and command handlers, and the
preset/default-preset store operations.

Byte sequences are modelled as List Nat, machine integers as Int with
explicit two-complement wrapping where overflow matters, strings as Lean
String or List Char (Go runes are Unicode scalar values, as are Lean Char).
External library primitives that the repository merely calls (AES-GCM
seal/open, base64, JSON struct codecs) are parameters of the model,
constrained by the round-trip hypotheses those libraries guarantee.
-/

namespace Hyprbot

/-- Byte sequences ([]byte in Go). -/
abbrev Bytes := List Nat

/-! ## Crypto envelope (internal/crypto, package crypto) -/

namespace crypto

/-- Envelope from the source: key id plus base64-encoded nonce and ciphertext. -/
structure Envelope where
  KeyID : String
  Nonce : String
  Ciphertext : String
deriving DecidableEq, Repr

/-- Manager from the source: named 32-byte keys and a designated current key id.
The Go map is modelled as an association list (Go map keys are unique). -/
structure Manager where
  currentKeyID : String
  keys : List (String × Bytes)
deriving DecidableEq, Repr

/-- Go map lookup on the key set. -/
def lookupKey (keys : List (String × Bytes)) (id : String) : Option Bytes :=
  (keys.find? (fun kv => kv.1 == id)).map (fun kv => kv.2)

/-- NewManager from the source: requires a non-empty current id, a non-empty
key map containing the current id, and 32-byte keys (the defensive copy of
the key map is elided, it does not change any observable value). -/
def NewManager (currentKeyID : String) (keys : List (String × Bytes)) : Option Manager :=
  if currentKeyID = "" then none
  else if keys.isEmpty then none
  else if (lookupKey keys currentKeyID).isNone then none
  else if keys.all (fun kv => kv.2.length == 32) then some ⟨currentKeyID, keys⟩
  else none

/-- Manager.Encrypt from the source, parameterised by the AES-256-GCM aeadSeal
primitive and base64 encoding of the Go standard library. The nonce drawn
from the cryptographic RNG is passed explicitly. A missing current key makes
aes.NewCipher fail in Go, hence the none branch. -/
def Manager.Encrypt (aeadSeal : Bytes → Bytes → Bytes → Bytes) (b64enc : Bytes → String)
    (m : Manager) (nonce : Bytes) (plaintext : Bytes) : Option Envelope :=
  match lookupKey m.keys m.currentKeyID with
  | none => none
  | some key =>
      some { KeyID := m.currentKeyID
             Nonce := b64enc nonce
             Ciphertext := b64enc (aeadSeal key nonce plaintext) }

/-- Manager.Decrypt from the source: select the key named by the envelope,
base64-decode nonce and ciphertext, then AEAD-open. Every failure (unknown
key id, bad base64, authentication failure) is an error, modelled as none. -/
def Manager.Decrypt (aeadOpen : Bytes → Bytes → Bytes → Option Bytes)
    (b64dec : String → Option Bytes) (m : Manager) (env : Envelope) : Option Bytes :=
  match lookupKey m.keys env.KeyID with
  | none => none
  | some key =>
      match b64dec env.Nonce with
      | none => none
      | some nonce =>
          match b64dec env.Ciphertext with
          | none => none
          | some ct => aeadOpen key nonce ct

/-- Manager.MarshalEncryptedString from the source: encrypt, then JSON-marshal
the envelope (jsonMarshal is the Go encoding/json serializer of the Envelope
struct). The Go string-to-bytes conversion is the identity on byte sequences. -/
def Manager.MarshalEncryptedString (aeadSeal : Bytes → Bytes → Bytes → Bytes)
    (b64enc : Bytes → String) (jsonMarshal : Envelope → String)
    (m : Manager) (nonce : Bytes) (value : Bytes) : Option String :=
  (m.Encrypt aeadSeal b64enc nonce value).map jsonMarshal

/-- Manager.UnmarshalEncryptedString from the source: JSON-unmarshal the
envelope, then decrypt. -/
def Manager.UnmarshalEncryptedString (aeadOpen : Bytes → Bytes → Bytes → Option Bytes)
    (b64dec : String → Option Bytes) (jsonUnmarshal : String → Option Envelope)
    (m : Manager) (raw : String) : Option Bytes :=
  match jsonUnmarshal raw with
  | none => none
  | some env => m.Decrypt aeadOpen b64dec env

end crypto

/-! ## Go string helpers (strings.TrimSpace, SplitN, IndexByte splitting) -/

/-- unicode.IsSpace from the Go standard library: the Unicode White_Space
code points, which is what strings.TrimSpace trims. -/
def goIsSpace (c : Char) : Bool :=
  let n := c.toNat
  n == 9 || n == 10 || n == 11 || n == 12 || n == 13 || n == 32 ||
  n == 0x85 || n == 0xA0 || n == 0x1680 ||
  (decide (0x2000 ≤ n) && decide (n ≤ 0x200A)) ||
  n == 0x2028 || n == 0x2029 || n == 0x202F || n == 0x205F || n == 0x3000

/-- strings.TrimSpace on the rune sequence: drop leading and trailing
White_Space code points. -/
def goTrimSpace (s : List Char) : List Char :=
  ((s.dropWhile goIsSpace).reverse.dropWhile goIsSpace).reverse

/-- strings.TrimSpace on a String. -/
def goTrimString (s : String) : String := String.mk (goTrimSpace s.toList)

/-- commandRemainder from the telegram command file: strings.SplitN of the
trimmed text on the first single space, returning what follows it ("" when
there is no space). -/
def commandRemainder (text : String) : String :=
  let t := goTrimSpace text.toList
  match t.findIdx? (fun c => c == ' ') with
  | none => ""
  | some idx => String.mk (t.drop (idx + 1))

/-- splitFirstWord from the telegram command file: trim, cut at the first
space byte, and trim the rest. -/
def splitFirstWord (s : String) : String × String :=
  let t := goTrimSpace s.toList
  match t.findIdx? (fun c => c == ' ') with
  | none => (String.mk t, "")
  | some idx => (String.mk (t.take idx), goTrimString (String.mk (t.drop (idx + 1))))

/-! ## Worker reply finalization (Worker.processJob, lines 234-241) -/

/-- Canned substitute for an empty provider reply. -/
def emptyReplySub : String := "Provider returned an empty response."

/-- Reply post-processing from Worker.processJob: TrimSpace, substitute the
canned text when empty, and cut to the first 4000 runes. Go len([]rune text)
counts Unicode scalar values, exactly the elements of List Char here. -/
def finalizeReply (respText : List Char) : List Char :=
  let text := goTrimSpace respText
  let text := if text = [] then emptyReplySub.toList else text
  if 4000 < text.length then text.take 4000 else text

/-! ## Job queue (internal/queue/stream.go) and worker loop (worker consumeLoop)

The redis stream with one consumer group is modelled by the entries not yet
delivered to the group (fresh), the delivered-but-unacked entries (the
pending entry list, still part of the stream), and the next engine-assigned
entry id. Ack = XAck + XDel removes the entry from both the pending list and
the stream. EnqueuedAt timestamps are elided (no claim mentions them). -/

/-- AskJob from internal/queue/stream.go (EnqueuedAt elided). -/
structure AskJob where
  JobID : String
  ChatID : Int
  ChatType : String
  UserID : Int
  MessageID : Int
  Prompt : String
  PresetName : String
  Attempts : Nat
deriving DecidableEq, Repr

/-- Deterministic stand-in for the fresh random 64-bit hex JobID that
StreamQueue.Enqueue assigns when the job carries a blank id. -/
def newJobIDModel (n : Nat) : String := "job-" ++ toString n

structure QueueState where
  fresh : List (Nat × AskJob)
  pel : List (Nat × AskJob)
  nextID : Nat
deriving DecidableEq, Repr

/-- StreamQueue.Enqueue: assign a JobID when blank, append a new stream entry
under the next monotonic entry id. -/
def QueueState.Enqueue (q : QueueState) (job : AskJob) : QueueState :=
  let job := if goTrimString job.JobID = "" then { job with JobID := newJobIDModel q.nextID } else job
  { q with fresh := q.fresh ++ [(q.nextID, job)], nextID := q.nextID + 1 }

/-- StreamQueue.Read with count 1: deliver the oldest never-delivered entry
to this consumer, moving it to the pending entry list. -/
def QueueState.ReadOne (q : QueueState) : Option (Nat × AskJob) × QueueState :=
  match q.fresh with
  | [] => (none, q)
  | e :: rest => (some e, { q with fresh := rest, pel := q.pel ++ [e] })

/-- StreamQueue.Ack: XAck in the group and XDel from the stream. -/
def QueueState.Ack (q : QueueState) (messageID : Nat) : QueueState :=
  { q with pel := q.pel.filter (fun e => e.1 != messageID) }

/-- The entries currently held by the stream (delivered or not, not yet
acked-and-deleted). -/
def QueueState.outstanding (q : QueueState) : List (Nat × AskJob) := q.fresh ++ q.pel

/-- Number of outstanding stream entries carrying the given job id. -/
def countJobCopies (q : QueueState) (jobID : String) : Nat :=
  (q.outstanding.countP fun e => e.2.JobID == jobID)

/-- Effects the worker consume loop performs against the queue, the metrics
counters and the messaging platform, in program order. -/
inductive WorkerOp where
  | countProcessed
  | countFailed
  | enqueueOp (job : AskJob)
  | ackOp (messageID : Nat)
  | sendErrorOp (chatID messageID : Int) (text : String)
deriving DecidableEq, Repr

/-- Terminal failure reply text from Worker.consumeLoop. -/
def terminalErrorText : String := "LLM provider error. Please try again later."

/-- Worker.consumeLoop lines 150-168, the branch taken after processJob
returned an error: count the failure; with retries left, bump Attempts,
enqueue the bumped job and, only if that enqueue succeeded, ack the old
entry; otherwise send the terminal error reply and ack. -/
def consumeLoopOnFailure (job : AskJob) (messageID : Nat) (maxJobRetries : Nat)
    (enqueueOk : Bool) : List WorkerOp :=
  WorkerOp.countFailed ::
    (if job.Attempts < maxJobRetries then
      if enqueueOk then
        [WorkerOp.enqueueOp { job with Attempts := job.Attempts + 1 }, WorkerOp.ackOp messageID]
      else []
    else
      [WorkerOp.sendErrorOp job.ChatID job.MessageID terminalErrorText, WorkerOp.ackOp messageID])

/-- Worker.consumeLoop lines 142-147, the branch for a successful processJob. -/
def consumeLoopOnSuccess (messageID : Nat) : List WorkerOp :=
  [WorkerOp.countProcessed, WorkerOp.ackOp messageID]

/-- Effect of one worker operation on the queue state (metric and messaging
operations do not touch the queue). -/
def applyOp (q : QueueState) : WorkerOp → QueueState
  | WorkerOp.enqueueOp job => q.Enqueue job
  | WorkerOp.ackOp id => q.Ack id
  | _ => q

def applyOps (q : QueueState) (ops : List WorkerOp) : QueueState := ops.foldl applyOp q

/-- The ordering property claimed by the spec invariant I4: every enqueue in
the trace is immediately preceded by an ack of the old entry. -/
def ackImmediatelyPrecedesEnqueue (ops : List WorkerOp) (messageID : Nat) : Bool :=
  (List.range ops.length).all fun i =>
    match ops[i]? with
    | some (WorkerOp.enqueueOp _) =>
        decide (1 ≤ i) && decide (ops[i - 1]? = some (WorkerOp.ackOp messageID))
    | _ => true

def countEnqueueOps (ops : List WorkerOp) : Nat :=
  ops.countP fun op => match op with | WorkerOp.enqueueOp _ => true | _ => false

def countFailedOps (ops : List WorkerOp) : Nat :=
  ops.countP fun op => match op with | WorkerOp.countFailed => true | _ => false

def hasTerminalReply (ops : List WorkerOp) : Bool :=
  ops.any fun op =>
    match op with
    | WorkerOp.sendErrorOp _ _ t => t == terminalErrorText
    | _ => false

/-- Worker consume loop driven on a queue whose every job execution fails
(provider permanently down) and whose re-enqueues succeed: read one message,
run the failure branch, apply its effects, repeat. Returns, per round, the
Attempts value of the job read and the operations performed. -/
def runFailingWorker (maxJobRetries : Nat) : Nat → QueueState → List (Nat × List WorkerOp)
  | 0, _ => []
  | fuel + 1, q =>
    match q.ReadOne with
    | (none, _) => []
    | (some (id, job), q1) =>
        let ops := consumeLoopOnFailure job id maxJobRetries true
        (job.Attempts, ops) :: runFailingWorker maxJobRetries fuel (applyOps q1 ops)

/-! ## Rate limiter (internal/queue ratelimit file) -/

/-- Counter key: chat id, user id, UTC hour bucket (the source formats the
bucket as the YYYYMMDDHH rendering of the truncated hour; hours since epoch
identify the same bucket). -/
abbrev RLKey := Int × Int × Nat

/-- The redis counters, one per key (absent keys read 0, as INCR does). -/
abbrev RLCounts := RLKey → Nat

/-- The INCR-with-TTL redis script: increment the counter and return the new
value. The TTL (seconds to the top of the next hour, minimum 1) is elided:
expiry is modelled by the hour bucket inside the key. -/
def rlIncr (counts : RLCounts) (k : RLKey) : Nat × RLCounts :=
  let c := counts k + 1
  (c, fun k2 => if k2 = k then c else counts k2)

/-- RateLimiter.Allow from the source: truncate now to the hour, increment
the per-(chat,user,hour) counter unconditionally, allow when the new count
is at most the limit, and report the window end as reset time. Time is UTC
seconds; the limit is the int64 configured per hour. -/
def RateLimiterAllow (limit : Int) (counts : RLCounts) (chatID userID : Int)
    (now : Nat) : (Bool × Nat × Nat) × RLCounts :=
  let windowStart := 3600 * (now / 3600)
  let windowEnd := windowStart + 3600
  let key : RLKey := (chatID, userID, now / 3600)
  let r := rlIncr counts key
  ((decide ((r.1 : Int) ≤ limit), r.1, windowEnd), r.2)

/-- Counter state after k successive Allow calls for the same chat, user and
instant. -/
def allowSeq (limit : Int) (chatID userID : Int) (now : Nat) (counts : RLCounts) :
    Nat → RLCounts
  | 0 => counts
  | k + 1 => (RateLimiterAllow limit (allowSeq limit chatID userID now counts k) chatID userID now).2

/-- Allowed flag of the (k+1)-th successive Allow call. -/
def nthAllowed (limit : Int) (chatID userID : Int) (now : Nat) (counts : RLCounts)
    (k : Nat) : Bool :=
  (RateLimiterAllow limit (allowSeq limit chatID userID now counts k) chatID userID now).1.1

/-! ## Ingress service (telegram command file) -/

/-- Service.allowRate: users with id 0 (no effective user) and a nil limiter
bypass the limiter entirely; otherwise invoke Allow and proceed on allow
(on deny the handler stops; limiter errors fail open and are elided).
Returns (proceed, counters after, whether Allow was invoked). -/
def allowRate (limiterPresent : Bool) (limit : Int) (counts : RLCounts)
    (chatID userID : Int) (now : Nat) : Bool × RLCounts × Bool :=
  if userID = 0 ∨ limiterPresent = false then (true, counts, false)
  else
    let r := RateLimiterAllow limit counts chatID userID now
    (r.1.1, r.2, true)

/-- Outcome of a queue-triggering command handler: the job enqueued (if any),
the reply sent by the handler itself (the rate-limit denial reply is sent
inside allowRate and not recorded here), whether the limiter was invoked,
and the counter state afterwards. -/
structure HandlerOutcome where
  enqueued : Option AskJob
  reply : Option String
  limiterInvoked : Bool
  counts : RLCounts

def acceptedReply : String := "Accepted. Processing in queue."

/-- Service.ask from the telegram command file: trim the remainder as the
prompt, reject an empty prompt with usage text, consult allowRate, ensure
the chat, and enqueue the job (queueOk models whether XADD succeeds). -/
def askHandler (limiterPresent : Bool) (limit : Int) (counts : RLCounts)
    (chatID : Int) (chatType : String) (userID messageID : Int)
    (text : String) (queueOk : Bool) (now : Nat) : HandlerOutcome :=
  let prompt := goTrimString (commandRemainder text)
  if prompt = "" then ⟨none, some "Usage: /ask <text>", false, counts⟩
  else
    match allowRate limiterPresent limit counts chatID userID now with
    | (false, counts2, inv) => ⟨none, none, inv, counts2⟩
    | (true, counts2, inv) =>
        if queueOk then
          ⟨some ⟨"", chatID, chatType, userID, messageID, prompt, "", 0⟩,
            some acceptedReply, inv, counts2⟩
        else ⟨none, some "Queue is unavailable right now.", inv, counts2⟩

/-- Service.ai from the telegram command file: split the remainder into
preset and prompt, reject when either is empty, then as Service.ask with
PresetName set. -/
def aiHandler (limiterPresent : Bool) (limit : Int) (counts : RLCounts)
    (chatID : Int) (chatType : String) (userID messageID : Int)
    (text : String) (queueOk : Bool) (now : Nat) : HandlerOutcome :=
  let rest := goTrimString (commandRemainder text)
  let pp := splitFirstWord rest
  if pp.1 = "" ∨ pp.2 = "" then ⟨none, some "Usage: /ai <preset> <text>", false, counts⟩
  else
    match allowRate limiterPresent limit counts chatID userID now with
    | (false, counts2, inv) => ⟨none, none, inv, counts2⟩
    | (true, counts2, inv) =>
        if queueOk then
          ⟨some ⟨"", chatID, chatType, userID, messageID, pp.2, pp.1, 0⟩,
            some acceptedReply, inv, counts2⟩
        else ⟨none, some "Queue is unavailable right now.", inv, counts2⟩

/-! ## Ingress update processor -/

/-- main (lines 88-102): the AllowedUserID wired into the processor is the
configured admin user id in private access mode and 0 in public mode. -/
def mainAllowedUserID (accessMode : String) (adminUserID : Int) : Int :=
  if accessMode = "private" then adminUserID else 0

/-- Modelled from the spec: main constructs the telegram Processor with an
AllowedUserID field, but the Processor declaration present in the tree does
not carry that field, so the access gate itself is missing from the sources.
Per the spec, in private mode ingress must drop any update whose user id
differs from the configured admin id before any handler runs; in public
mode (AllowedUserID 0) all users pass. -/
def accessAllows (allowedUserID userID : Int) : Bool :=
  allowedUserID == 0 || userID == allowedUserID

/-- Processor.ProcessUpdate: the access gate (modelled from the spec, see
accessAllows) followed by the deduplication drop from the processor source:
a dedupe error proceeds fail-open, MarkFirst false drops the update.
Returns whether Base.ProcessUpdate (the handler dispatch) runs. -/
def ProcessUpdate (allowedUserID userID : Int) (dedupeEnabled : Bool)
    (markFirst : Option Bool) : Bool :=
  if accessAllows allowedUserID userID = false then false
  else if dedupeEnabled then
    match markFirst with
    | some false => false
    | _ => true
  else true

/-! ## Preset store operations (storage queries file, telegram command file) -/

/-- Per-chat preset rows and the default_preset_name column of the chats row
(the chat itself exists; requireAdmin upserts it before these handlers run). -/
structure ChatRecord where
  presets : List String
  defaultPresetName : Option String
deriving DecidableEq, Repr

/-- Store.GetDefaultPresetName: ErrNotFound (none) when the column is NULL or
blank after TrimSpace. -/
def GetDefaultPresetName (c : ChatRecord) : Option String :=
  match c.defaultPresetName with
  | none => none
  | some d => if goTrimString d = "" then none else some d

/-- Store.SetDefaultPreset (the chat row exists, so one row is updated). -/
def SetDefaultPreset (c : ChatRecord) (name : String) : ChatRecord :=
  { c with defaultPresetName := some name }

/-- Store.ClearDefaultPreset. -/
def ClearDefaultPreset (c : ChatRecord) : ChatRecord :=
  { c with defaultPresetName := none }

/-- Store.DeletePreset: ErrNotFound (none) when zero rows are affected. -/
def DeletePreset (c : ChatRecord) (name : String) : Option ChatRecord :=
  if name ∈ c.presets then some { c with presets := c.presets.erase name } else none

/-- Store.UpsertPreset restricted to the preset name (the fields the default
pointer logic depends on). -/
def UpsertPreset (c : ChatRecord) (name : String) : ChatRecord :=
  { c with presets := if name ∈ c.presets then c.presets else c.presets ++ [name] }

/-- Service.aiPresetDel after requireAdmin: reject a blank name with usage
text, delete the preset (NotFound replies and stops), then clear the default
pointer exactly when it named the deleted preset. -/
def aiPresetDel (c : ChatRecord) (name : String) : ChatRecord :=
  if name = "" then c
  else
    match DeletePreset c name with
    | none => c
    | some c1 =>
        match GetDefaultPresetName c1 with
        | some d => if d = name then ClearDefaultPreset c1 else c1
        | none => c1

/-- Service.aiPresetAdd after requireAdmin: reject blank arguments, require
the provider to exist in the chat, upsert the preset, and set the default
pointer only when none is currently set. -/
def aiPresetAdd (c : ChatRecord) (name providerName model systemPrompt : String)
    (providerExists : Bool) : ChatRecord :=
  let sysp := goTrimString systemPrompt
  if name = "" ∨ providerName = "" ∨ model = "" ∨ sysp = "" then c
  else if providerExists = false then c
  else
    let c1 := UpsertPreset c name
    if (GetDefaultPresetName c1).isNone then SetDefaultPreset c1 name else c1

/-! ## Provider adapter retry loop (openai_compat client, custom_http client)

Both adapters run the same bounded retry loop around their callOnce; the
per-attempt network interaction is abstracted into the observable outcome of
callOnce. Parsing details live behind the parsed field: some text when the
2xx body parsed to a reply, none on a parse failure. -/

inductive CallOutcome where
  | transportError
  | readBodyError
  | httpResponse (status : Nat) (parsed : Option String)
deriving DecidableEq, Repr

/-- callOnce classification, identical in both clients: transport errors are
retryable; body-read errors are not; status at least 500 or equal to 429 is
retryable; any other status outside 200-299 is not; a 2xx body that fails to
parse is not. Except.error carries the retry flag. -/
def callOnceClass : CallOutcome → Except Bool String
  | CallOutcome.transportError => Except.error true
  | CallOutcome.readBodyError => Except.error false
  | CallOutcome.httpResponse status parsed =>
      if 500 ≤ status ∨ status = 429 then Except.error true
      else if status < 200 ∨ 299 < status then Except.error false
      else
        match parsed with
        | some text => Except.ok text
        | none => Except.error false

/-- Two-complement wrap of an integer into the signed 64-bit range, the
semantics of Go int64 (and time.Duration) arithmetic. -/
def wrapInt64 (x : Int) : Int := (x + 2 ^ 63) % 2 ^ 64 - 2 ^ 63

/-- Go (1 << attempt) at type int64: 2 to the attempt, wrapped (shift counts
of 64 and more produce 0, count 63 the minimal int64). -/
def goShiftOne (n : Nat) : Int := wrapInt64 (2 ^ n)

/-- The backoff duration the loop computes: BackoffBase * (1 << attempt) in
int64 nanoseconds. -/
def backoffDur (base : Int) (attempt : Nat) : Int := wrapInt64 (base * goShiftOne attempt)

inductive ChatResult where
  | ok (text : String)
  | failed
  | cancelled
deriving DecidableEq, Repr

/-- One Chat invocation as observed from outside: its final result, the
number of callOnce attempts made, and the backoff durations actually waited
(in order). -/
structure ChatRun where
  result : ChatResult
  attemptsMade : Nat
  sleeps : List Int
deriving DecidableEq, Repr

/-- The retry loop shared verbatim by openai_compat.Client.Chat and
custom_http.Client.Chat: for attempt from the given index while attempt is
at most MaxRetries, run callOnce; return on success; break on a
non-retryable error or on the last attempt; otherwise wait BackoffBase *
(1 << attempt) unless the context is cancelled during the wait. Fuel is
MaxRetries + 1 - attempt at every call. -/
def chatLoop (maxRetries : Nat) (base : Int) (outcomes : Nat → CallOutcome)
    (cancelDuringBackoff : Nat → Bool) : Nat → Nat → ChatRun
  | 0, _ => ⟨ChatResult.failed, 0, []⟩
  | fuel + 1, attempt =>
    match callOnceClass (outcomes attempt) with
    | Except.ok t => ⟨ChatResult.ok t, 1, []⟩
    | Except.error retry =>
        if retry = false ∨ attempt = maxRetries then ⟨ChatResult.failed, 1, []⟩
        else
          let backoff := backoffDur base attempt
          if cancelDuringBackoff attempt then ⟨ChatResult.cancelled, 1, []⟩
          else
            let r := chatLoop maxRetries base outcomes cancelDuringBackoff fuel (attempt + 1)
            ⟨r.result, r.attemptsMade + 1, backoff :: r.sleeps⟩

/-- openai_compat.Client.Chat (the retry loop around callOnce). -/
def openaiCompatChat (maxRetries : Nat) (base : Int) (outcomes : Nat → CallOutcome)
    (cancelDuringBackoff : Nat → Bool) : ChatRun :=
  chatLoop maxRetries base outcomes cancelDuringBackoff (maxRetries + 1) 0

/-- custom_http.Client.Chat (the identical retry loop around its callOnce). -/
def customHttpChat (maxRetries : Nat) (base : Int) (outcomes : Nat → CallOutcome)
    (cancelDuringBackoff : Nat → Bool) : ChatRun :=
  chatLoop maxRetries base outcomes cancelDuringBackoff (maxRetries + 1) 0

/-- A provider that answers HTTP 503 to every call. -/
def always503 : Nat → CallOutcome := fun _ => CallOutcome.httpResponse 503 none

/-- A context that is never cancelled. -/
def noCancel : Nat → Bool := fun _ => false

/-! ## Concrete library instances used by the crypto witness

Toy stand-ins for the Go standard-library primitives (AEAD, base64, the JSON
codec of the Envelope struct), used only to discharge the round-trip
hypotheses of the crypto theorem at one concrete input. -/

def zeros32 : Bytes := List.replicate 32 0

def idSeal : Bytes → Bytes → Bytes → Bytes := fun _ _ p => p

def idOpen : Bytes → Bytes → Bytes → Option Bytes := fun _ _ c => some c

def byteStr (b : Bytes) : String := String.mk (b.map Char.ofNat)

def byteStrDec (s : String) : Option Bytes := some (s.toList.map Char.toNat)

def envC5 : crypto.Envelope := ⟨"k1", byteStr [1, 2, 3], byteStr [104, 105]⟩

def envEnc (e : crypto.Envelope) : String := e.KeyID ++ "|" ++ e.Nonce ++ "|" ++ e.Ciphertext

def envDec (s : String) : Option crypto.Envelope :=
  if s = envEnc envC5 then some envC5 else none

/-! ## Concrete fixtures for the end-to-end scenarios -/

/-- A freshly enqueued job (Attempts 0) as produced by the /ask handler for
the scenario chat. -/
def jobC : AskJob := ⟨"j", 111, "group", 7, 5, "hello", "", 0⟩

/-- A queue whose pending entry list holds exactly the scenario job under
entry id 0 (the worker has read it and is handling its failure). -/
def queueC : QueueState := ⟨[], [(0, jobC)], 1⟩

/-- A queue holding exactly the scenario job, not yet delivered. -/
def queueC4 : QueueState := ⟨[(0, jobC)], [], 1⟩

/-- The retry-exhaust scenario: worker max job retries 3, every execution
fails, run to completion. -/
def roundsC4 : List (Nat × List WorkerOp) := runFailingWorker 3 10 queueC4

def totalEnqueuesC4 : Nat := (roundsC4.map fun r => countEnqueueOps r.2).sum

def totalFailedC4 : Nat := (roundsC4.map fun r => countFailedOps r.2).sum

/-- A provider reply of 4001 non-ASCII runes (each two bytes in UTF-8), to
exercise the rune-counted cap. -/
def longReplyC : List Char := List.replicate 4001 'é'

/-- The scenario job after its third re-enqueue (Attempts 3). -/
def jobTermC : AskJob := ⟨"j", 111, "group", 7, 5, "hello", "", 3⟩

/-! # Theorems -/

theorem newManager_fields {current : String} {keys : List (String × Bytes)}
    {m : crypto.Manager} (hm : crypto.NewManager current keys = some m) :
    m.currentKeyID = current ∧ m.keys = keys := by
  by_cases h1 : current = "" <;> simp [crypto.NewManager, h1] at hm
  obtain ⟨-, -, -, heq⟩ := hm
  cases heq
  exact ⟨rfl, rfl⟩

/-- C5: for a manager built by NewManager whose current key id resolves to a
key, and for every plaintext, UnmarshalEncryptedString of
MarshalEncryptedString returns the plaintext. The AEAD seal/open pair,
base64 and the JSON codec of the Envelope struct are Go standard-library
primitives outside this repository; the round-trip facts those libraries
guarantee enter as hypotheses at exactly the values used. -/
theorem C5_envelope_roundtrip
    (aeadSeal : Bytes → Bytes → Bytes → Bytes)
    (aeadOpen : Bytes → Bytes → Bytes → Option Bytes)
    (b64enc : Bytes → String) (b64dec : String → Option Bytes)
    (jsonMarshal : crypto.Envelope → String)
    (jsonUnmarshal : String → Option crypto.Envelope)
    (current : String) (keys : List (String × Bytes)) (m : crypto.Manager)
    (key nonce P : Bytes)
    (hm : crypto.NewManager current keys = some m)
    (hkey : crypto.lookupKey keys current = some key)
    (hopen : aeadOpen key nonce (aeadSeal key nonce P) = some P)
    (hb64n : b64dec (b64enc nonce) = some nonce)
    (hb64c : b64dec (b64enc (aeadSeal key nonce P)) = some (aeadSeal key nonce P))
    (hjson : jsonUnmarshal (jsonMarshal ⟨current, b64enc nonce, b64enc (aeadSeal key nonce P)⟩) =
      some ⟨current, b64enc nonce, b64enc (aeadSeal key nonce P)⟩) :
    ∃ raw, m.MarshalEncryptedString aeadSeal b64enc jsonMarshal nonce P = some raw ∧
      m.UnmarshalEncryptedString aeadOpen b64dec jsonUnmarshal raw = some P := by
  obtain ⟨hcur, hks⟩ := newManager_fields hm
  refine ⟨jsonMarshal ⟨current, b64enc nonce, b64enc (aeadSeal key nonce P)⟩, ?_, ?_⟩
  · simp only [crypto.Manager.MarshalEncryptedString, crypto.Manager.Encrypt, hks, hcur, hkey]
    rfl
  · simp only [crypto.Manager.UnmarshalEncryptedString, hjson, crypto.Manager.Decrypt, hks, hkey,
      hb64n, hb64c, hopen]

/-- Witness for C5 at a concrete key set, nonce and plaintext, with toy
stand-ins for the library primitives. -/
theorem C5_envelope_roundtrip_witness :
    ∃ raw,
      crypto.Manager.MarshalEncryptedString idSeal byteStr envEnc
        ⟨"k1", [("k1", zeros32)]⟩ [1, 2, 3] [104, 105] = some raw ∧
      crypto.Manager.UnmarshalEncryptedString idOpen byteStrDec envDec
        ⟨"k1", [("k1", zeros32)]⟩ raw = some [104, 105] :=
  C5_envelope_roundtrip idSeal idOpen byteStr byteStrDec envEnc envDec
    "k1" [("k1", zeros32)] ⟨"k1", [("k1", zeros32)]⟩ zeros32 [1, 2, 3] [104, 105]
    (by decide) (by decide) rfl (by decide) (by decide) (by decide)

/-- C1 counterexample: in public mode a duplicate update (MarkFirst false)
does not reach the base processor, refuting the clause that in public mode
every update passes to the handlers. -/
theorem C1_private_mode_gate_counterexample :
    ProcessUpdate (mainAllowedUserID "public" 42) 7 true (some false) = false := by decide

/-- C1 (amended): in private mode every update whose user id differs from
the configured admin id (positive, as config validation enforces) is dropped
before the base processor runs; in public mode every update that the
deduplicator does not drop as a duplicate reaches the handlers, as does
every update when deduplication is disabled. -/
theorem C1_private_mode_gate (adminUserID userID : Int) (dedupeEnabled : Bool)
    (markFirst : Option Bool) :
    (0 < adminUserID → userID ≠ adminUserID →
      ProcessUpdate (mainAllowedUserID "private" adminUserID) userID dedupeEnabled markFirst
        = false) ∧
    (markFirst ≠ some false →
      ProcessUpdate (mainAllowedUserID "public" adminUserID) userID dedupeEnabled markFirst
        = true) ∧
    (dedupeEnabled = false →
      ProcessUpdate (mainAllowedUserID "public" adminUserID) userID dedupeEnabled markFirst
        = true) := by
  have hpub : mainAllowedUserID "public" adminUserID = 0 := if_neg (by decide)
  have hpriv : mainAllowedUserID "private" adminUserID = adminUserID := if_pos rfl
  refine ⟨?_, ?_, ?_⟩
  · intro hpos hneq
    have h0 : adminUserID ≠ 0 := by omega
    rw [hpriv]
    simp [ProcessUpdate, accessAllows, h0, hneq]
  · intro hmf
    rw [hpub]
    cases dedupeEnabled with
    | false => simp [ProcessUpdate, accessAllows]
    | true =>
      cases markFirst with
      | none => simp [ProcessUpdate, accessAllows]
      | some b =>
        cases b with
        | false => exact absurd rfl hmf
        | true => simp [ProcessUpdate, accessAllows]
  · intro hd
    rw [hpub, hd]
    simp [ProcessUpdate, accessAllows]

/-- Witness for C1: the admin with id 42 configured, a foreign user 7 in
private mode is dropped; in public mode a first-delivery update passes, and
so does any update with deduplication disabled. -/
theorem C1_private_mode_gate_witness :
    ProcessUpdate (mainAllowedUserID "private" 42) 7 true (some true) = false ∧
    ProcessUpdate (mainAllowedUserID "public" 42) 7 true (some true) = true ∧
    ProcessUpdate (mainAllowedUserID "public" 42) 7 false (some false) = true :=
  ⟨(C1_private_mode_gate 42 7 true (some true)).1 (by decide) (by decide),
   (C1_private_mode_gate 42 7 true (some true)).2.1 (by decide),
   (C1_private_mode_gate 42 7 false (some false)).2.2 rfl⟩

/-- C3: on job failure with retries left the worker counts the failure,
enqueues the job with Attempts incremented and only then acks the old entry
(the trace lists effects in program order); when the re-enqueue fails the
old entry is not acked; when Attempts equals the max the worker sends the
terminal error reply and acks without re-enqueueing. -/
theorem C3_failure_handling (j : AskJob) (msgID : Nat) (maxR : Nat) (eo : Bool) :
    (j.Attempts < maxR →
      consumeLoopOnFailure j msgID maxR true =
        [WorkerOp.countFailed, WorkerOp.enqueueOp { j with Attempts := j.Attempts + 1 },
         WorkerOp.ackOp msgID]) ∧
    (j.Attempts < maxR → ∀ i, WorkerOp.ackOp i ∉ consumeLoopOnFailure j msgID maxR false) ∧
    (j.Attempts = maxR →
      consumeLoopOnFailure j msgID maxR eo =
        [WorkerOp.countFailed, WorkerOp.sendErrorOp j.ChatID j.MessageID terminalErrorText,
         WorkerOp.ackOp msgID] ∧
      ∀ j2, WorkerOp.enqueueOp j2 ∉ consumeLoopOnFailure j msgID maxR eo) := by
  refine ⟨fun h => by simp [consumeLoopOnFailure, h],
    fun h i => by simp [consumeLoopOnFailure, h], fun h => ?_⟩
  have hn : ¬ j.Attempts < maxR := by omega
  exact ⟨by simp [consumeLoopOnFailure, hn], fun j2 => by simp [consumeLoopOnFailure, hn]⟩

/-- Witness for C3: the scenario job at Attempts 0 with three retries left
is re-enqueued bumped and then acked, is left unacked when its re-enqueue
fails, and at Attempts 3 receives the terminal reply. -/
theorem C3_failure_handling_witness :
    consumeLoopOnFailure jobC 0 3 true =
      [WorkerOp.countFailed, WorkerOp.enqueueOp { jobC with Attempts := 1 },
       WorkerOp.ackOp 0] ∧
    (∀ i, WorkerOp.ackOp i ∉ consumeLoopOnFailure jobC 0 3 false) ∧
    consumeLoopOnFailure jobTermC 3 3 true =
      [WorkerOp.countFailed, WorkerOp.sendErrorOp 111 5 terminalErrorText, WorkerOp.ackOp 3] :=
  ⟨(C3_failure_handling jobC 0 3 true).1 (by decide),
   (C3_failure_handling jobC 0 3 true).2.1 (by decide),
   ((C3_failure_handling jobTermC 3 3 true).2.2 (by decide)).1⟩

/-- C2 counterexample: in the failure trace of a job with retries left the
re-enqueue comes first and the ack of the old entry second, so no ack
immediately precedes the re-enqueue, and after the re-enqueue but before the
ack the stream holds two outstanding copies of the job. -/
theorem C2_retry_queue_discipline_counterexample :
    ackImmediatelyPrecedesEnqueue (consumeLoopOnFailure jobC 0 3 true) 0 = false ∧
    countJobCopies (applyOps queueC ((consumeLoopOnFailure jobC 0 3 true).take 2))
      jobC.JobID = 2 := by decide

/-- C2 (amended): the attempts counter only increases (the re-enqueued copy
carries Attempts incremented by one); the re-enqueue immediately precedes
the ack of the old entry (enqueue-then-ack), so between those two steps the
queue transiently holds two outstanding copies of the job, and once the ack
completes exactly one copy is outstanding again. -/
theorem C2_retry_queue_discipline (j : AskJob) (msgID maxR : Nat)
    (pelA pelB : List (Nat × AskJob)) (q : QueueState)
    (hq : q.pel = pelA ++ (msgID, j) :: pelB)
    (hone : countJobCopies q j.JobID = 1)
    (hid : goTrimString j.JobID ≠ "")
    (hlt : j.Attempts < maxR) :
    consumeLoopOnFailure j msgID maxR true =
      [WorkerOp.countFailed, WorkerOp.enqueueOp { j with Attempts := j.Attempts + 1 },
       WorkerOp.ackOp msgID] ∧
    ({ j with Attempts := j.Attempts + 1 } : AskJob).Attempts = j.Attempts + 1 ∧
    countJobCopies (applyOps q ((consumeLoopOnFailure j msgID maxR true).take 2)) j.JobID = 2 ∧
    countJobCopies (applyOps q (consumeLoopOnFailure j msgID maxR true)) j.JobID = 1 := by
  have hops : consumeLoopOnFailure j msgID maxR true =
      [WorkerOp.countFailed, WorkerOp.enqueueOp { j with Attempts := j.Attempts + 1 },
       WorkerOp.ackOp msgID] := by simp [consumeLoopOnFailure, hlt]
  have henq : q.Enqueue { j with Attempts := j.Attempts + 1 } =
      { q with fresh := q.fresh ++ [(q.nextID, { j with Attempts := j.Attempts + 1 })],
               nextID := q.nextID + 1 } := by
    simp [QueueState.Enqueue, hid]
  have h1 := hone
  rw [countJobCopies, QueueState.outstanding, hq] at h1
  simp only [List.countP_append, List.countP_cons, beq_self_eq_true, if_true] at h1
  have hfresh0 : (q.fresh.countP fun e => e.2.JobID == j.JobID) = 0 := by omega
  have hA0 : (pelA.countP fun e => e.2.JobID == j.JobID) = 0 := by omega
  have hB0 : (pelB.countP fun e => e.2.JobID == j.JobID) = 0 := by omega
  have hfilter0 : (((pelA ++ (msgID, j) :: pelB).filter fun e => e.1 != msgID).countP
      fun e => e.2.JobID == j.JobID) = 0 := by
    rw [List.countP_eq_zero]
    intro a ha
    rw [List.mem_filter] at ha
    obtain ⟨hmem, hne⟩ := ha
    rw [List.mem_append, List.mem_cons] at hmem
    rcases hmem with hA | hEq | hB
    · exact (List.countP_eq_zero.mp hA0) a hA
    · rw [hEq] at hne; simp at hne
    · exact (List.countP_eq_zero.mp hB0) a hB
  refine ⟨hops, rfl, ?_, ?_⟩
  · rw [hops]
    have hred : applyOps q ([WorkerOp.countFailed,
        WorkerOp.enqueueOp { j with Attempts := j.Attempts + 1 },
        WorkerOp.ackOp msgID].take 2) = q.Enqueue { j with Attempts := j.Attempts + 1 } := rfl
    rw [hred, henq, countJobCopies, QueueState.outstanding]
    simp only [hq, List.countP_append, List.countP_cons, List.countP_nil, beq_self_eq_true,
      if_true]
    omega
  · rw [hops]
    have hred : applyOps q [WorkerOp.countFailed,
        WorkerOp.enqueueOp { j with Attempts := j.Attempts + 1 },
        WorkerOp.ackOp msgID] =
        (q.Enqueue { j with Attempts := j.Attempts + 1 }).Ack msgID := rfl
    rw [hred, henq]
    rw [countJobCopies, QueueState.outstanding]
    simp only [QueueState.Ack, hq]
    simp only [List.countP_append, List.countP_cons, List.countP_nil, beq_self_eq_true, if_true,
      hfilter0]
    omega

/-- Witness for C2 at the scenario job held as the single pending entry. -/
theorem C2_retry_queue_discipline_witness :
    consumeLoopOnFailure jobC 0 3 true =
      [WorkerOp.countFailed, WorkerOp.enqueueOp { jobC with Attempts := 1 },
       WorkerOp.ackOp 0] ∧
    ({ jobC with Attempts := 1 } : AskJob).Attempts = 1 ∧
    countJobCopies (applyOps queueC ((consumeLoopOnFailure jobC 0 3 true).take 2))
      jobC.JobID = 2 ∧
    countJobCopies (applyOps queueC (consumeLoopOnFailure jobC 0 3 true)) jobC.JobID = 1 :=
  C2_retry_queue_discipline jobC 0 3 [] [] queueC rfl (by decide) (by decide) (by decide)

/-- C4 counterexample: with worker max job retries 3 and a permanently
failing provider, the scenario job is re-enqueued three times (not twice),
the failed-jobs counter ends at 4 (not 3), and the terminal error reply is
not posted on the third execution. -/
theorem C4_retry_exhaust_counterexample :
    totalEnqueuesC4 ≠ 2 ∧ totalFailedC4 ≠ 3 ∧
    (roundsC4.map fun r => hasTerminalReply r.2) ≠ [false, false, true] ∧
    (roundsC4.map fun r => hasTerminalReply r.2)[2]? = some false := by decide

/-- C4 (amended): with adapter max retries 2 every job execution against an
always-503 provider makes exactly 3 HTTP attempts and fails; with worker max
job retries 3 the job is re-enqueued exactly three times with Attempts going
0, 1, 2, 3; the worker posts the terminal error reply on the fourth
execution (each execution acks exactly once); queue failed total ends at 4. -/
theorem C4_retry_exhaust_scenario :
    (roundsC4.map fun r => r.1) = [0, 1, 2, 3] ∧
    totalEnqueuesC4 = 3 ∧
    totalFailedC4 = 4 ∧
    (roundsC4.map fun r => hasTerminalReply r.2) = [false, false, false, true] ∧
    (roundsC4.map fun r => r.2.countP fun op =>
        match op with | WorkerOp.ackOp _ => true | _ => false) = [1, 1, 1, 1] ∧
    (openaiCompatChat 2 400000000 always503 noCancel).attemptsMade = 3 ∧
    (openaiCompatChat 2 400000000 always503 noCancel).result = ChatResult.failed := by
  decide

theorem allowSeq_count (limit : Int) (chatID userID : Int) (now : Nat) (counts : RLCounts) :
    ∀ k, allowSeq limit chatID userID now counts k (chatID, userID, now / 3600) =
      counts (chatID, userID, now / 3600) + k := by
  intro k
  induction k with
  | zero => rfl
  | succ n ih =>
      simp [allowSeq, RateLimiterAllow, rlIncr, ih]
      omega

/-- C6: Allow increments the per-(chat,user,hour) counter unconditionally
(denied calls also consume a slot and no other bucket is touched), reports
the incremented count, allows exactly when that count is at most the limit,
returns the next top of the UTC hour as reset time, and consequently within
one hour bucket the (n+1)-th call is allowed exactly when n+1 is at most
the limit. -/
theorem C6_rate_limiter_allow (limit : Int) (counts : RLCounts) (chatID userID : Int)
    (now : Nat) :
    ((RateLimiterAllow limit counts chatID userID now).1.2.1 =
      counts (chatID, userID, now / 3600) + 1) ∧
    ((RateLimiterAllow limit counts chatID userID now).2 (chatID, userID, now / 3600) =
      counts (chatID, userID, now / 3600) + 1) ∧
    (∀ k2, k2 ≠ (chatID, userID, now / 3600) →
      (RateLimiterAllow limit counts chatID userID now).2 k2 = counts k2) ∧
    ((RateLimiterAllow limit counts chatID userID now).1.1 = true ↔
      ((counts (chatID, userID, now / 3600) : Int) + 1 ≤ limit)) ∧
    ((RateLimiterAllow limit counts chatID userID now).1.2.2 =
      3600 * (now / 3600) + 3600) ∧
    (counts (chatID, userID, now / 3600) = 0 →
      ∀ n : Nat, (nthAllowed limit chatID userID now counts n = true ↔
        ((n : Int) + 1 ≤ limit))) := by
  refine ⟨rfl, by simp [RateLimiterAllow, rlIncr], ?_, ?_, rfl, ?_⟩
  · intro k2 hk2
    simp [RateLimiterAllow, rlIncr, hk2]
  · simp [RateLimiterAllow, rlIncr]
  · intro hzero n
    unfold nthAllowed
    simp [RateLimiterAllow, rlIncr, allowSeq_count, hzero]

/-- Witness for C6 mirroring the repository rate-limiter test: limit 2 and
three calls in the same hour bucket: the first two are allowed, the third is
denied, and the reset time is the end of the first hour. -/
theorem C6_rate_limiter_allow_witness :
    nthAllowed 2 1 10 0 (fun _ => 0) 0 = true ∧
    nthAllowed 2 1 10 0 (fun _ => 0) 1 = true ∧
    nthAllowed 2 1 10 0 (fun _ => 0) 2 = false ∧
    (RateLimiterAllow 2 (fun _ => 0) 1 10 0).1.2.2 = 3600 := by
  have h := C6_rate_limiter_allow 2 (fun _ => 0) 1 10 0
  have hseq := h.2.2.2.2.2 rfl
  refine ⟨(hseq 0).mpr (by norm_num), (hseq 1).mpr (by norm_num), ?_, ?_⟩
  · have h2 := hseq 2
    have : ¬ (nthAllowed 2 1 10 0 (fun _ => 0) 2 = true) := fun hh => by
      have := h2.mp hh
      norm_num at this
    simpa using this
  · have := h.2.2.2.2.1
    simpa using this

/-- C8: the worker trims the provider reply; an all-whitespace or empty
reply is replaced by exactly the canned empty-response text; a trimmed reply
of more than 4000 Unicode scalar values is cut to its first 4000 scalar
values (runes, not bytes); otherwise the trimmed reply is sent unchanged. -/
theorem C8_reply_finalization (r : List Char) :
    (goTrimSpace r = [] → finalizeReply r = emptyReplySub.toList) ∧
    (goTrimSpace r ≠ [] → (goTrimSpace r).length ≤ 4000 → finalizeReply r = goTrimSpace r) ∧
    (4000 < (goTrimSpace r).length →
      finalizeReply r = (goTrimSpace r).take 4000 ∧ (finalizeReply r).length = 4000) := by
  refine ⟨?_, ?_, ?_⟩
  · intro h
    simp [finalizeReply, h]
    decide
  · intro hne hlen
    have : ¬ (4000 < (goTrimSpace r).length) := by omega
    simp [finalizeReply, hne, this]
  · intro hgt
    have hne : goTrimSpace r ≠ [] := by
      intro hh
      rw [hh] at hgt
      simp at hgt
    refine ⟨by simp [finalizeReply, hne, hgt], ?_⟩
    simp [finalizeReply, hne, hgt, List.length_take]
    omega

/-- Witness for C8: a 4001-rune non-ASCII reply is cut to its first 4000
runes (counted as scalar values), and an all-whitespace reply becomes the
canned text. -/
theorem C8_reply_finalization_witness :
    finalizeReply longReplyC = List.replicate 4000 'é' ∧
    (finalizeReply longReplyC).length = 4000 ∧
    finalizeReply [' '] = emptyReplySub.toList := by
  have h1 : goIsSpace 'é' = false := by decide
  have hd : ∀ m, List.dropWhile goIsSpace (List.replicate m 'é') = List.replicate m 'é' := by
    intro m
    cases m with
    | zero => rfl
    | succ k => rw [List.replicate_succ, List.dropWhile_cons, if_neg (by simp [h1]),
        ← List.replicate_succ]
  have htrim : goTrimSpace longReplyC = List.replicate 4001 'é' := by
    show goTrimSpace (List.replicate 4001 'é') = _
    unfold goTrimSpace
    rw [hd, List.reverse_replicate, hd, List.reverse_replicate]
  have hlen : 4000 < (goTrimSpace longReplyC).length := by
    rw [htrim, List.length_replicate]
    norm_num
  obtain ⟨heq, hlen4⟩ := (C8_reply_finalization longReplyC).2.2 hlen
  refine ⟨?_, hlen4, (C8_reply_finalization [' ']).1 (by decide)⟩
  rw [heq, htrim, List.take_replicate]
  norm_num

theorem getDefault_some {c : ChatRecord} {x : String}
    (h : GetDefaultPresetName c = some x) :
    c.defaultPresetName = some x ∧ goTrimString x ≠ "" := by
  unfold GetDefaultPresetName at h
  split at h
  · cases h
  next dd hc =>
    split at h
    · cases h
    next ht =>
      injection h with h
      subst h
      exact ⟨hc, ht⟩

theorem getDefault_presets_irrel (c : ChatRecord) (ps : List String) :
    GetDefaultPresetName { c with presets := ps } = GetDefaultPresetName c := rfl

/-- C9: deleting a preset that is the chat current default clears the
default pointer; creating a preset in a chat with no default set (in
particular the first preset) sets the pointer to that preset; creating a
preset while a default exists leaves the pointer unchanged. -/
theorem C9_default_preset_maintenance (c : ChatRecord)
    (name pname model sysp d : String) (pe : Bool) :
    (name ∈ c.presets → GetDefaultPresetName c = some name →
      (aiPresetDel c name).defaultPresetName = none) ∧
    (GetDefaultPresetName c = none → name ≠ "" → pname ≠ "" → model ≠ "" →
      goTrimString sysp ≠ "" →
      (aiPresetAdd c name pname model sysp true).defaultPresetName = some name) ∧
    (GetDefaultPresetName c = some d →
      (aiPresetAdd c name pname model sysp pe).defaultPresetName = c.defaultPresetName) := by
  refine ⟨?_, ?_, ?_⟩
  · intro hmem hdef
    obtain ⟨hc, ht⟩ := getDefault_some hdef
    have hne : name ≠ "" := fun h0 => ht (by rw [h0]; decide)
    have hdel : GetDefaultPresetName { c with presets := c.presets.erase name } = some name := by
      rw [getDefault_presets_irrel, hdef]
    simp [aiPresetDel, DeletePreset, hne, hmem, hdel, ClearDefaultPreset]
  · intro hnone hn hp hm hs
    have hcond : ¬ (name = "" ∨ pname = "" ∨ model = "" ∨ goTrimString sysp = "") := by
      push_neg
      exact ⟨hn, hp, hm, hs⟩
    have hup : GetDefaultPresetName (UpsertPreset c name) = none := by
      unfold UpsertPreset
      rw [getDefault_presets_irrel, hnone]
    simp [aiPresetAdd, hcond, hup, SetDefaultPreset]
  · intro hdef
    simp only [aiPresetAdd]
    by_cases hcond : name = "" ∨ pname = "" ∨ model = "" ∨ goTrimString sysp = ""
    · rw [if_pos hcond]
    · have hup : GetDefaultPresetName (UpsertPreset c name) = some d := by
        unfold UpsertPreset
        rw [getDefault_presets_irrel, hdef]
      rw [if_neg hcond]
      cases pe with
      | false => rw [if_pos rfl]
      | true =>
          rw [if_neg (by decide : ¬ ((true : Bool) = false))]
          rw [if_neg (by simp [hup] :
            ¬ ((GetDefaultPresetName (UpsertPreset c name)).isNone = true))]
          rfl

/-- Witness for C9: deleting the default preset a clears the pointer; the
first preset of an empty chat becomes the default; adding another preset
while a default exists leaves it untouched. -/
theorem C9_default_preset_maintenance_witness :
    (aiPresetDel ⟨["a", "b"], some "a"⟩ "a").defaultPresetName = none ∧
    (aiPresetAdd ⟨[], none⟩ "p" "prov" "m" "sys" true).defaultPresetName = some "p" ∧
    (aiPresetAdd ⟨["a"], some "a"⟩ "x" "prov" "m" "sys" true).defaultPresetName = some "a" :=
  ⟨(C9_default_preset_maintenance ⟨["a", "b"], some "a"⟩ "a" "" "" "" "" true).1
      (by decide) (by decide),
   (C9_default_preset_maintenance ⟨[], none⟩ "p" "prov" "m" "sys" "" true).2.1
      (by decide) (by decide) (by decide) (by decide) (by decide),
   (C9_default_preset_maintenance ⟨["a"], some "a"⟩ "x" "prov" "m" "sys" "a" true).2.2
      (by decide)⟩

/-- C10: for /ask and /ai messages whose resolved user id is 0 (no effective
user), allowRate bypasses the limiter: Allow is never invoked, no counter
bucket changes, and a well-formed request (nonempty prompt, healthy queue)
is always enqueued with the accepted reply. -/
theorem C10_userless_skips_rate_limit (limiterPresent : Bool) (limit : Int)
    (counts : RLCounts) (chatID : Int) (chatType : String) (messageID : Int)
    (text : String) (now : Nat) :
    allowRate limiterPresent limit counts chatID 0 now = (true, counts, false) ∧
    (goTrimString (commandRemainder text) ≠ "" →
      (askHandler limiterPresent limit counts chatID chatType 0 messageID
          text true now).limiterInvoked = false ∧
      (askHandler limiterPresent limit counts chatID chatType 0 messageID
          text true now).counts = counts ∧
      (askHandler limiterPresent limit counts chatID chatType 0 messageID
          text true now).enqueued =
        some ⟨"", chatID, chatType, 0, messageID,
          goTrimString (commandRemainder text), "", 0⟩ ∧
      (askHandler limiterPresent limit counts chatID chatType 0 messageID
          text true now).reply = some acceptedReply) ∧
    ((splitFirstWord (goTrimString (commandRemainder text))).1 ≠ "" →
     (splitFirstWord (goTrimString (commandRemainder text))).2 ≠ "" →
      (aiHandler limiterPresent limit counts chatID chatType 0 messageID
          text true now).limiterInvoked = false ∧
      (aiHandler limiterPresent limit counts chatID chatType 0 messageID
          text true now).counts = counts ∧
      (aiHandler limiterPresent limit counts chatID chatType 0 messageID
          text true now).enqueued =
        some ⟨"", chatID, chatType, 0, messageID,
          (splitFirstWord (goTrimString (commandRemainder text))).2,
          (splitFirstWord (goTrimString (commandRemainder text))).1, 0⟩ ∧
      (aiHandler limiterPresent limit counts chatID chatType 0 messageID
          text true now).reply = some acceptedReply) := by
  have hall : allowRate limiterPresent limit counts chatID 0 now = (true, counts, false) := by
    unfold allowRate
    rw [if_pos (Or.inl rfl)]
  refine ⟨hall, ?_, ?_⟩
  · intro hne
    simp only [askHandler, hall, if_neg hne]
    exact ⟨rfl, rfl, rfl, rfl⟩
  · intro hne1 hne2
    have hcond : ¬ ((splitFirstWord (goTrimString (commandRemainder text))).1 = "" ∨
        (splitFirstWord (goTrimString (commandRemainder text))).2 = "") := by
      push_neg
      exact ⟨hne1, hne2⟩
    simp only [aiHandler, hall, if_neg hcond]
    exact ⟨rfl, rfl, rfl, rfl⟩

/-- Witness for C10: a /ask and a /ai message with no effective user are
enqueued without consulting the limiter. -/
theorem C10_userless_skips_rate_limit_witness :
    (askHandler true 30 (fun _ => 0) 111 "group" 0 5 "/ask hello" true 1000).limiterInvoked
      = false ∧
    (askHandler true 30 (fun _ => 0) 111 "group" 0 5 "/ask hello" true 1000).enqueued =
      some ⟨"", 111, "group", 0, 5, "hello", "", 0⟩ ∧
    (aiHandler true 30 (fun _ => 0) 111 "group" 0 5 "/ai p hi there" true 1000).enqueued =
      some ⟨"", 111, "group", 0, 5, "hi there", "p", 0⟩ := by
  have ha := (C10_userless_skips_rate_limit true 30 (fun _ => 0) 111 "group" 5
    "/ask hello" 1000).2.1 (by decide)
  have hb := ((C10_userless_skips_rate_limit true 30 (fun _ => 0) 111 "group" 5
    "/ai p hi there" 1000).2.2 (by decide) (by decide)).2.2.1
  exact ⟨ha.1, ha.2.2.1, hb⟩

theorem chatLoop_stop_ok (maxR : Nat) (base : Int) (outcomes : Nat → CallOutcome)
    (cancel : Nat → Bool) (fuel attempt : Nat) (t : String)
    (h : callOnceClass (outcomes attempt) = Except.ok t) :
    chatLoop maxR base outcomes cancel (fuel + 1) attempt = ⟨ChatResult.ok t, 1, []⟩ := by
  simp [chatLoop, h]

theorem chatLoop_stop_noretry (maxR : Nat) (base : Int) (outcomes : Nat → CallOutcome)
    (cancel : Nat → Bool) (fuel attempt : Nat)
    (h : callOnceClass (outcomes attempt) = Except.error false) :
    chatLoop maxR base outcomes cancel (fuel + 1) attempt = ⟨ChatResult.failed, 1, []⟩ := by
  simp [chatLoop, h]

theorem chatLoop_stop_last (maxR : Nat) (base : Int) (outcomes : Nat → CallOutcome)
    (cancel : Nat → Bool) (fuel attempt : Nat)
    (h : callOnceClass (outcomes attempt) = Except.error true) (hlast : attempt = maxR) :
    chatLoop maxR base outcomes cancel (fuel + 1) attempt = ⟨ChatResult.failed, 1, []⟩ := by
  subst hlast
  simp [chatLoop, h]

theorem chatLoop_stop_cancel (maxR : Nat) (base : Int) (outcomes : Nat → CallOutcome)
    (cancel : Nat → Bool) (fuel attempt : Nat)
    (h : callOnceClass (outcomes attempt) = Except.error true) (hne : attempt ≠ maxR)
    (hc : cancel attempt = true) :
    chatLoop maxR base outcomes cancel (fuel + 1) attempt = ⟨ChatResult.cancelled, 1, []⟩ := by
  simp [chatLoop, h, hne, hc]

theorem chatLoop_step (maxR : Nat) (base : Int) (outcomes : Nat → CallOutcome)
    (cancel : Nat → Bool) (fuel attempt : Nat)
    (h : callOnceClass (outcomes attempt) = Except.error true) (hne : attempt ≠ maxR)
    (hc : cancel attempt = false) :
    chatLoop maxR base outcomes cancel (fuel + 1) attempt =
      ⟨(chatLoop maxR base outcomes cancel fuel (attempt + 1)).result,
       (chatLoop maxR base outcomes cancel fuel (attempt + 1)).attemptsMade + 1,
       backoffDur base attempt ::
         (chatLoop maxR base outcomes cancel fuel (attempt + 1)).sleeps⟩ := by
  simp [chatLoop, h, hne, hc]

theorem chatLoop_exhaust (base : Int) (outcomes : Nat → CallOutcome) (cancel : Nat → Bool) :
    ∀ (n attempt : Nat),
      (∀ k, attempt ≤ k → k ≤ attempt + n → callOnceClass (outcomes k) = Except.error true) →
      (∀ k, cancel k = false) →
      chatLoop (attempt + n) base outcomes cancel (n + 1) attempt =
        ⟨ChatResult.failed, n + 1, (List.range n).map fun i => backoffDur base (attempt + i)⟩ := by
  intro n
  induction n with
  | zero =>
      intro attempt hfail hc
      exact chatLoop_stop_last _ _ _ _ _ _ (hfail attempt (le_refl _) (by omega)) rfl
  | succ m ih =>
      intro attempt hfail hc
      have h0 := hfail attempt (le_refl _) (by omega)
      have hne : attempt ≠ attempt + (m + 1) := by omega
      rw [chatLoop_step (attempt + (m + 1)) base outcomes cancel (m + 1) attempt h0 hne
        (hc attempt)]
      have hM : attempt + (m + 1) = attempt + 1 + m := by omega
      rw [hM, ih (attempt + 1) (fun k hk1 hk2 => hfail k (by omega) (by omega)) hc]
      have hcomp : ((fun i => backoffDur base (attempt + i)) ∘ Nat.succ) =
          (fun i => backoffDur base (attempt + 1 + i)) := by
        funext i
        show backoffDur base (attempt + (i + 1)) = backoffDur base (attempt + 1 + i)
        congr 1
        omega
      have hlist : ((List.range (m + 1)).map fun i => backoffDur base (attempt + i)) =
          backoffDur base attempt ::
            ((List.range m).map fun i => backoffDur base (attempt + 1 + i)) := by
        rw [List.range_succ_eq_map, List.map_cons, List.map_map, hcomp]
        simp
      rw [hlist]

theorem chatLoop_shift (base : Int) (outcomes : Nat → CallOutcome) (cancel : Nat → Bool) :
    ∀ (i fuel attempt maxR : Nat),
      (∀ k, attempt ≤ k → k < attempt + i →
        callOnceClass (outcomes k) = Except.error true ∧ cancel k = false) →
      attempt + i ≤ maxR →
      chatLoop maxR base outcomes cancel (fuel + i) attempt =
        ⟨(chatLoop maxR base outcomes cancel fuel (attempt + i)).result,
         (chatLoop maxR base outcomes cancel fuel (attempt + i)).attemptsMade + i,
         ((List.range i).map fun t => backoffDur base (attempt + t)) ++
           (chatLoop maxR base outcomes cancel fuel (attempt + i)).sleeps⟩ := by
  intro i
  induction i with
  | zero =>
      intro fuel attempt maxR hpre hle
      simp
  | succ m ih =>
      intro fuel attempt maxR hpre hle
      have h0 := hpre attempt (le_refl _) (by omega)
      have hne : attempt ≠ maxR := by omega
      have hf : fuel + (m + 1) = (fuel + m) + 1 := by omega
      rw [hf, chatLoop_step maxR base outcomes cancel (fuel + m) attempt h0.1 hne h0.2]
      rw [ih fuel (attempt + 1) maxR
        (fun k hk1 hk2 => hpre k (by omega) (by omega)) (by omega)]
      have hA : attempt + 1 + m = attempt + (m + 1) := by omega
      rw [hA]
      have hcomp : ((fun t => backoffDur base (attempt + t)) ∘ Nat.succ) =
          (fun t => backoffDur base (attempt + 1 + t)) := by
        funext t
        show backoffDur base (attempt + (t + 1)) = backoffDur base (attempt + 1 + t)
        congr 1
        omega
      have hlist : ((List.range (m + 1)).map fun t => backoffDur base (attempt + t)) =
          backoffDur base attempt ::
            ((List.range m).map fun t => backoffDur base (attempt + 1 + t)) := by
        rw [List.range_succ_eq_map, List.map_cons, List.map_map, hcomp]
        simp
      rw [hlist]
      simp [ChatRun.mk.injEq]
      omega

theorem customHttpChat_eq_openaiCompatChat : customHttpChat = openaiCompatChat := rfl

theorem wrapInt64_eq_self {x : Int} (h1 : -(2 ^ 63) ≤ x) (h2 : x < 2 ^ 63) :
    wrapInt64 x = x := by
  unfold wrapInt64
  have e1 : (2 : Int) ^ 63 = 9223372036854775808 := by norm_num
  have e2 : (2 : Int) ^ 64 = 18446744073709551616 := by norm_num
  rw [e1] at h1 h2
  rw [e1, e2]
  omega

theorem backoffDur_eq_of_fits {base : Int} {k : Nat} (hb : 1 ≤ base)
    (hfit : base * 2 ^ k < 2 ^ 63) : backoffDur base k = base * 2 ^ k := by
  have hknn : (0 : Int) ≤ 2 ^ k := by positivity
  have hple : (2 : Int) ^ k ≤ base * 2 ^ k := le_mul_of_one_le_left hknn hb
  have hpk : (2 : Int) ^ k < 2 ^ 63 := lt_of_le_of_lt hple hfit
  have hsh : goShiftOne k = 2 ^ k := by
    unfold goShiftOne
    apply wrapInt64_eq_self
    · have : (0 : Int) ≤ 2 ^ 63 := by positivity
      linarith
    · exact hpk
  unfold backoffDur
  rw [hsh]
  apply wrapInt64_eq_self
  · have hnn : (0 : Int) ≤ base * 2 ^ k := mul_nonneg (by linarith) hknn
    have : (0 : Int) ≤ 2 ^ 63 := by positivity
    linarith
  · exact hfit

/-- C7 counterexample: the backoff the loop computes before retry number 35
with the default base of 400 ms is the 64-bit wrap of base * 2 ^ 35, a
negative duration, not the claimed mathematical product. -/
theorem C7_adapter_retry_policy_counterexample :
    (openaiCompatChat 36 400000000 always503 noCancel).sleeps[35]? ≠
      some (400000000 * 2 ^ 35) ∧
    (openaiCompatChat 36 400000000 always503 noCancel).sleeps[35]? =
      some (-4702848726509551616) := by decide

/-- C7 (amended): both adapters retry exactly on HTTP status at least 500,
status 429 and transport errors, and do not retry on other non-2xx statuses,
body-read or parse errors, or context cancellation during the backoff wait;
a permanently failing retryable call performs exactly max retries + 1 HTTP
attempts; the duration waited before retry number k (0-based) is
base * 2 ^ k computed in 64-bit signed nanosecond arithmetic, which equals
the mathematical product whenever that product fits below 2 ^ 63. -/
theorem C7_adapter_retry_policy (maxR : Nat) (base : Int)
    (outcomes : Nat → CallOutcome) (cancel : Nat → Bool) (k0 : Nat) (st : Nat)
    (p : Option String) :
    (callOnceClass (CallOutcome.httpResponse st p) = Except.error true ↔
      500 ≤ st ∨ st = 429) ∧
    callOnceClass CallOutcome.transportError = Except.error true ∧
    callOnceClass CallOutcome.readBodyError = Except.error false ∧
    ((st < 200 ∨ 299 < st) → ¬ (500 ≤ st ∨ st = 429) →
      callOnceClass (CallOutcome.httpResponse st p) = Except.error false) ∧
    (200 ≤ st → st ≤ 299 →
      callOnceClass (CallOutcome.httpResponse st none) = Except.error false) ∧
    ((∀ k, callOnceClass (outcomes k) = Except.error true) → (∀ k, cancel k = false) →
      openaiCompatChat maxR base outcomes cancel =
        ⟨ChatResult.failed, maxR + 1, (List.range maxR).map (backoffDur base)⟩ ∧
      customHttpChat maxR base outcomes cancel =
        ⟨ChatResult.failed, maxR + 1, (List.range maxR).map (backoffDur base)⟩) ∧
    ((∀ k, k < k0 → callOnceClass (outcomes k) = Except.error true ∧ cancel k = false) →
      k0 ≤ maxR → callOnceClass (outcomes k0) = Except.error false →
      (openaiCompatChat maxR base outcomes cancel).attemptsMade = k0 + 1 ∧
      (customHttpChat maxR base outcomes cancel).attemptsMade = k0 + 1 ∧
      (openaiCompatChat maxR base outcomes cancel).result = ChatResult.failed) ∧
    ((∀ k, k < k0 → callOnceClass (outcomes k) = Except.error true ∧ cancel k = false) →
      k0 < maxR → callOnceClass (outcomes k0) = Except.error true → cancel k0 = true →
      (openaiCompatChat maxR base outcomes cancel).attemptsMade = k0 + 1 ∧
      (openaiCompatChat maxR base outcomes cancel).result = ChatResult.cancelled) ∧
    (1 ≤ base → ∀ k : Nat, base * 2 ^ k < 2 ^ 63 → backoffDur base k = base * 2 ^ k) := by
  have hclass1 : callOnceClass (CallOutcome.httpResponse st p) = Except.error true ↔
      500 ≤ st ∨ st = 429 := by
    constructor
    · intro h
      by_cases hcond : 500 ≤ st ∨ st = 429
      · exact hcond
      · exfalso
        simp only [callOnceClass] at h
        rw [if_neg hcond] at h
        by_cases h2 : st < 200 ∨ 299 < st
        · rw [if_pos h2] at h
          cases h
        · rw [if_neg h2] at h
          cases p with
          | some t => cases h
          | none => cases h
    · intro hcond
      simp only [callOnceClass]
      rw [if_pos hcond]
  have hexh : (∀ k, callOnceClass (outcomes k) = Except.error true) →
      (∀ k, cancel k = false) →
      chatLoop maxR base outcomes cancel (maxR + 1) 0 =
        ⟨ChatResult.failed, maxR + 1, (List.range maxR).map (backoffDur base)⟩ := by
    intro hfail hc
    have h := chatLoop_exhaust base outcomes cancel maxR 0
      (fun k _ _ => hfail k) hc
    rw [Nat.zero_add] at h
    rw [h]
    have hfun : (fun i => backoffDur base (0 + i)) = backoffDur base := by
      funext i
      rw [Nat.zero_add]
    rw [hfun]
  have hstopN : (∀ k, k < k0 → callOnceClass (outcomes k) = Except.error true ∧
        cancel k = false) →
      k0 ≤ maxR → callOnceClass (outcomes k0) = Except.error false →
      chatLoop maxR base outcomes cancel (maxR + 1) 0 =
        ⟨ChatResult.failed, 1 + k0,
         ((List.range k0).map fun t => backoffDur base t) ++ []⟩ := by
    intro hpre hk0 hbad
    have hf : maxR + 1 = (maxR - k0 + 1) + k0 := by omega
    rw [hf, chatLoop_shift base outcomes cancel k0 (maxR - k0 + 1) 0 maxR
      (fun k hk1 hk2 => hpre k (by omega)) (by omega)]
    rw [show (0 + k0) = k0 from by omega]
    rw [chatLoop_stop_noretry maxR base outcomes cancel (maxR - k0) k0 hbad]
    rw [show (fun t => backoffDur base (0 + t)) = (fun t => backoffDur base t) from by
      funext t
      rw [Nat.zero_add]]
  have hstopC : (∀ k, k < k0 → callOnceClass (outcomes k) = Except.error true ∧
        cancel k = false) →
      k0 < maxR → callOnceClass (outcomes k0) = Except.error true → cancel k0 = true →
      chatLoop maxR base outcomes cancel (maxR + 1) 0 =
        ⟨ChatResult.cancelled, 1 + k0,
         ((List.range k0).map fun t => backoffDur base t) ++ []⟩ := by
    intro hpre hk0 hretry hcan
    have hf : maxR + 1 = (maxR - k0 + 1) + k0 := by omega
    rw [hf, chatLoop_shift base outcomes cancel k0 (maxR - k0 + 1) 0 maxR
      (fun k hk1 hk2 => hpre k (by omega)) (by omega)]
    rw [show (0 + k0) = k0 from by omega]
    rw [chatLoop_stop_cancel maxR base outcomes cancel (maxR - k0) k0 hretry (by omega) hcan]
    rw [show (fun t => backoffDur base (0 + t)) = (fun t => backoffDur base t) from by
      funext t
      rw [Nat.zero_add]]
  refine ⟨hclass1, rfl, rfl, ?_, ?_, ?_, ?_, ?_, ?_⟩
  · intro h2 hno
    simp only [callOnceClass]
    rw [if_neg hno, if_pos h2]
  · intro hlo hhi
    have hno : ¬ (500 ≤ st ∨ st = 429) := by omega
    have h2 : ¬ (st < 200 ∨ 299 < st) := by omega
    simp only [callOnceClass]
    rw [if_neg hno, if_neg h2]
  · intro hfail hc
    exact ⟨hexh hfail hc, hexh hfail hc⟩
  · intro hpre hk0 hbad
    have h := hstopN hpre hk0 hbad
    unfold openaiCompatChat customHttpChat
    rw [h]
    refine ⟨?_, ?_, rfl⟩
    · show 1 + k0 = k0 + 1
      omega
    · show 1 + k0 = k0 + 1
      omega
  · intro hpre hk0 hretry hcan
    have h := hstopC hpre hk0 hretry hcan
    unfold openaiCompatChat
    rw [h]
    refine ⟨?_, rfl⟩
    show 1 + k0 = k0 + 1
    omega
  · intro hb k hfit
    exact backoffDur_eq_of_fits hb hfit

/-- Witness for C7: with max retries 2 and an always-503 provider, both
adapters make exactly 3 HTTP attempts and wait 400 ms then 800 ms. -/
theorem C7_adapter_retry_policy_witness :
    openaiCompatChat 2 400000000 always503 noCancel =
      ⟨ChatResult.failed, 3, [400000000, 800000000]⟩ ∧
    customHttpChat 2 400000000 always503 noCancel =
      ⟨ChatResult.failed, 3, [400000000, 800000000]⟩ := by
  have hx := (C7_adapter_retry_policy 2 400000000 always503 noCancel 0 503 none).2.2.2.2.2.1
    (fun _ => rfl) (fun _ => rfl)
  constructor
  · rw [hx.1]
    decide
  · rw [hx.2]
    decide

end Hyprbot
